import Mathlib

/-!
Verification of the geometry-algebra specification of the
PyMuPDF-Utilities notebooks, and of the hidden-text detection script.

The geometry classes (`Point`, `Rect`, `IRect`, `Quad`, `Matrix`) live in
the wrapped PyMuPDF library, outside this repository's files; they are
modelled here from the specification's words.  Numeric components are
modelled by exact rationals.  Operations that the library surfaces as a
raised `ZeroDivisionError` are modelled as `Option`-valued functions
returning `none`.  The hidden-text scan (drawings/spans filter pipeline)
is embedded directly from the notebook source.
-/

namespace PyMuPDF

/-- Modelled from the spec: a `Point` is a pair of floats (x, y);
components modelled as rationals. -/
structure Point where
  x : ℚ
  y : ℚ
deriving DecidableEq

/-- Modelled from the spec: a `Rect` is 4 floats x0, y0, x1, y1
(top-left, bottom-right); components modelled as rationals. -/
structure Rect where
  x0 : ℚ
  y0 : ℚ
  x1 : ℚ
  y1 : ℚ
deriving DecidableEq

/-- Modelled from the spec: an `IRect` is 4 integers x0, y0, x1, y1. -/
structure IRect where
  x0 : ℤ
  y0 : ℤ
  x1 : ℤ
  y1 : ℤ
deriving DecidableEq

/-- Modelled from the spec: a `Quad` is 4 corner points in the fixed
order upper-left, upper-right, lower-left, lower-right. -/
structure Quad where
  ul : Point
  ur : Point
  ll : Point
  lr : Point
deriving DecidableEq

/-- Modelled from the spec: a `Matrix` is 6 floats a, b, c, d, e, f,
conceptually the row-major 3×3 affine matrix
`[[a,b,0],[c,d,0],[e,f,1]]`; components modelled as rationals. -/
structure Matrix where
  a : ℚ
  b : ℚ
  c : ℚ
  d : ℚ
  e : ℚ
  f : ℚ
deriving DecidableEq

/-- Modelled from the spec: the determinant `a*d - b*c` of the linear
part of the affine matrix. -/
def Matrix.det (m : Matrix) : ℚ := m.a * m.d - m.b * m.c

/-- Modelled from the spec: the all-zero matrix (0,0,0,0,0,0), the
sentinel returned when inverting a singular matrix. -/
def Matrix.zero : Matrix := ⟨0, 0, 0, 0, 0, 0⟩

/-- Modelled from the spec: `Identity` = (1,0,0,1,0,0), the
multiplicative neutral element. -/
def Matrix.Identity : Matrix := ⟨1, 0, 0, 1, 0, 0⟩

/-- Modelled from the spec: matrix multiplication (`concat`) of the
row-major 3×3 affine matrices `[[a,b,0],[c,d,0],[e,f,1]]`. -/
def Matrix.concat (m n : Matrix) : Matrix :=
  ⟨m.a * n.a + m.b * n.c,
   m.a * n.b + m.b * n.d,
   m.c * n.a + m.d * n.c,
   m.c * n.b + m.d * n.d,
   m.e * n.a + m.f * n.c + n.e,
   m.e * n.b + m.f * n.d + n.f⟩

/-- Modelled from the spec: unary matrix inversion `~m`.  The algebraic
inverse when `a*d - b*c ≠ 0`; for a singular matrix it does not fail but
returns the all-zero matrix as a sentinel. -/
def Matrix.invert (m : Matrix) : Matrix :=
  if m.det = 0 then Matrix.zero
  else
    ⟨m.d / m.det, -m.b / m.det, -m.c / m.det, m.a / m.det,
     (m.c * m.f - m.d * m.e) / m.det, (m.b * m.e - m.a * m.f) / m.det⟩

/-- C4: the matrix Identity = (1,0,0,1,0,0) is the two-sided neutral
element of matrix multiplication: for every matrix m,
`Identity.concat m = m` and `m.concat Identity = m`. -/
theorem C4_identity_neutral :
    ∀ m : Matrix, Matrix.Identity.concat m = m ∧ m.concat Matrix.Identity = m := by
  intro m
  obtain ⟨a, b, c, d, e, f⟩ := m
  constructor <;>
    · simp only [Matrix.concat, Matrix.Identity, Matrix.mk.injEq]
      refine ⟨?_, ?_, ?_, ?_, ?_, ?_⟩ <;> ring

/-- C3: unary matrix inversion is an involution on the invertible
matrices: for every matrix m with nonzero determinant,
`(m.invert).invert = m`; and for every singular matrix,
`invert` returns the zero matrix. -/
theorem C3_invert_involution :
    (∀ m : Matrix, m.det ≠ 0 → (m.invert).invert = m) ∧
    (∀ m : Matrix, m.det = 0 → m.invert = Matrix.zero) := by
  constructor
  · intro m hm
    obtain ⟨a, b, c, d, e, f⟩ := m
    have hΔ : a * d - b * c ≠ 0 := hm
    have hdet1 : (Matrix.mk a b c d e f).invert =
        ⟨d / (a * d - b * c), -b / (a * d - b * c), -c / (a * d - b * c),
         a / (a * d - b * c), (c * f - d * e) / (a * d - b * c),
         (b * e - a * f) / (a * d - b * c)⟩ := by
      simp only [Matrix.invert, Matrix.det]
      rw [if_neg hΔ]
    rw [hdet1]
    have hdet2 : (Matrix.mk (d / (a * d - b * c)) (-b / (a * d - b * c))
        (-c / (a * d - b * c)) (a / (a * d - b * c))
        ((c * f - d * e) / (a * d - b * c))
        ((b * e - a * f) / (a * d - b * c))).det = 1 / (a * d - b * c) := by
      simp only [Matrix.det]
      field_simp
      left
      ring
    have hne : (Matrix.mk (d / (a * d - b * c)) (-b / (a * d - b * c))
        (-c / (a * d - b * c)) (a / (a * d - b * c))
        ((c * f - d * e) / (a * d - b * c))
        ((b * e - a * f) / (a * d - b * c))).det ≠ 0 := by
      rw [hdet2]
      exact one_div_ne_zero hΔ
    simp only [Matrix.invert]
    rw [if_neg hne, hdet2]
    simp only [Matrix.mk.injEq]
    refine ⟨?_, ?_, ?_, ?_, ?_, ?_⟩ <;> (field_simp; try ring)
  · intro m hm
    simp only [Matrix.invert]
    rw [if_pos hm]

/-- Witness for C3 at the concrete shear matrix (1,1,0,1,0,0) and the
concrete singular matrix (1,0,1,0,1,0). -/
theorem C3_invert_involution_witness :
    ((Matrix.mk 1 1 0 1 0 0).det ≠ 0 ∧
      ((Matrix.mk 1 1 0 1 0 0).invert).invert = Matrix.mk 1 1 0 1 0 0) ∧
    ((Matrix.mk 1 0 1 0 1 0).det = 0 ∧
      (Matrix.mk 1 0 1 0 1 0).invert = Matrix.zero) :=
  ⟨⟨by norm_num [Matrix.det],
    C3_invert_involution.1 ⟨1, 1, 0, 1, 0, 0⟩ (by norm_num [Matrix.det])⟩,
   ⟨by norm_num [Matrix.det],
    C3_invert_involution.2 ⟨1, 0, 1, 0, 1, 0⟩ (by norm_num [Matrix.det])⟩⟩

/-- Modelled from the spec: transforming a point by the affine matrix,
the row vector (x, y, 1) times the row-major matrix
`[[a,b,0],[c,d,0],[e,f,1]]`. -/
def Point.transform (p : Point) (m : Matrix) : Point :=
  ⟨p.x * m.a + p.y * m.c + m.e, p.x * m.b + p.y * m.d + m.f⟩

/-- Modelled from the spec: the second operand of point addition may be
a same-typed Point, a point-like 2-sequence, or a plain number that
broadcasts to every component. -/
inductive PointOperand where
  | pt (p : Point)
  | seq (a b : ℚ)
  | num (k : ℚ)

/-- Modelled from the spec: component-wise point addition; a like-
sequence second operand is coerced to the first operand's class and a
number broadcasts to all components; the result is a new Point. -/
def Point.addOp : Point → PointOperand → Point
  | p, .pt q => ⟨p.x + q.x, p.y + q.y⟩
  | p, .seq a b => ⟨p.x + a, p.y + b⟩
  | p, .num k => ⟨p.x + k, p.y + k⟩

/-- Modelled from the spec: component-wise multiplication of a point by
a number. -/
def Point.mulS (p : Point) (k : ℚ) : Point := ⟨p.x * k, p.y * k⟩

/-- Modelled from the spec: dividing a point by a matrix-like requires
the matrix be invertible and transforms the point by the inverse; a
singular divisor fails with a ZeroDivisionError, modelled as `none`. -/
def Point.divM (p : Point) (m : Matrix) : Option Point :=
  if m.det = 0 then none else some (p.transform m.invert)

/-- Modelled from the spec: dividing a point by a number, component-
wise; division by the number zero fails with a ZeroDivisionError,
modelled as `none`. -/
def Point.divN (p : Point) (k : ℚ) : Option Point :=
  if k = 0 then none else some (p.mulS k⁻¹)

/-- Modelled from the spec: rectangle width `x1 - x0`. -/
def Rect.width (r : Rect) : ℚ := r.x1 - r.x0

/-- Modelled from the spec: rectangle height `y1 - y0`. -/
def Rect.height (r : Rect) : ℚ := r.y1 - r.y0

/-- Modelled from the spec: component-wise rectangle addition. -/
def Rect.add (r s : Rect) : Rect :=
  ⟨r.x0 + s.x0, r.y0 + s.y0, r.x1 + s.x1, r.y1 + s.y1⟩

/-- Modelled from the spec: component-wise multiplication of a
rectangle by a number. -/
def Rect.mulS (r : Rect) (k : ℚ) : Rect :=
  ⟨r.x0 * k, r.y0 * k, r.x1 * k, r.y1 * k⟩

/-- Modelled from the spec: transforming a rectangle applies the affine
map to its defining corner points and then re-normalizes (re-sorts the
coordinates) so the result again satisfies top-left / bottom-right
ordering. -/
def Rect.transform (r : Rect) (m : Matrix) : Rect :=
  let p1 := Point.transform ⟨r.x0, r.y0⟩ m
  let p2 := Point.transform ⟨r.x1, r.y0⟩ m
  let p3 := Point.transform ⟨r.x0, r.y1⟩ m
  let p4 := Point.transform ⟨r.x1, r.y1⟩ m
  ⟨min (min p1.x p2.x) (min p3.x p4.x),
   min (min p1.y p2.y) (min p3.y p4.y),
   max (max p1.x p2.x) (max p3.x p4.x),
   max (max p1.y p2.y) (max p3.y p4.y)⟩

/-- Modelled from the spec: dividing a rectangle by a matrix-like; a
singular divisor fails with a ZeroDivisionError, modelled as `none`. -/
def Rect.divM (r : Rect) (m : Matrix) : Option Rect :=
  if m.det = 0 then none else some (r.transform m.invert)

/-- Modelled from the spec: dividing a rectangle by a number; division
by the number zero fails with a ZeroDivisionError, modelled as `none`. -/
def Rect.divN (r : Rect) (k : ℚ) : Option Rect :=
  if k = 0 then none else some (r.mulS k⁻¹)

/-- Modelled from the spec: the rectangle of an `IRect`, viewing its
integer coordinates as rationals. -/
def IRect.toRect (i : IRect) : Rect := ⟨i.x0, i.y0, i.x1, i.y1⟩

/-- Modelled from the spec: the integer-rounded `IRect` of a `Rect`
(floor of the top-left, ceiling of the bottom-right coordinates). -/
def Rect.irect (r : Rect) : IRect := ⟨⌊r.x0⌋, ⌊r.y0⌋, ⌈r.x1⌉, ⌈r.y1⌉⟩

/-- Modelled from the spec: dividing an `IRect` by a matrix-like; the
result is integer-rounded back to the first operand's class; a singular
divisor fails with a ZeroDivisionError, modelled as `none`. -/
def IRect.divM (i : IRect) (m : Matrix) : Option IRect :=
  if m.det = 0 then none else some ((i.toRect.transform m.invert).irect)

/-- Modelled from the spec: dividing an `IRect` by a number; division
by the number zero fails with a ZeroDivisionError, modelled as `none`. -/
def IRect.divN (i : IRect) (k : ℚ) : Option IRect :=
  if k = 0 then none else some ((i.toRect.mulS k⁻¹).irect)

/-- Modelled from the spec: transforming a quad applies the affine map
to each of its four corner points. -/
def Quad.transform (q : Quad) (m : Matrix) : Quad :=
  ⟨q.ul.transform m, q.ur.transform m, q.ll.transform m, q.lr.transform m⟩

/-- Modelled from the spec: dividing a quad by a matrix-like; a
singular divisor fails with a ZeroDivisionError, modelled as `none`. -/
def Quad.divM (q : Quad) (m : Matrix) : Option Quad :=
  if m.det = 0 then none else some (q.transform m.invert)

/-- Modelled from the spec: dividing a quad by a number; division by
the number zero fails with a ZeroDivisionError, modelled as `none`. -/
def Quad.divN (q : Quad) (k : ℚ) : Option Quad :=
  if k = 0 then none
  else some ⟨q.ul.mulS k⁻¹, q.ur.mulS k⁻¹, q.ll.mulS k⁻¹, q.lr.mulS k⁻¹⟩

/-- Modelled from the spec: component-wise multiplication of a matrix
by a number. -/
def Matrix.mulS (m : Matrix) (k : ℚ) : Matrix :=
  ⟨m.a * k, m.b * k, m.c * k, m.d * k, m.e * k, m.f * k⟩

/-- Modelled from the spec: dividing a matrix by a matrix-like is
multiplication by the inverse; a singular divisor fails with a
ZeroDivisionError, modelled as `none`. -/
def Matrix.divM (m n : Matrix) : Option Matrix :=
  if n.det = 0 then none else some (m.concat n.invert)

/-- Modelled from the spec: dividing a matrix by a number; division by
the number zero fails with a ZeroDivisionError, modelled as `none`. -/
def Matrix.divN (m : Matrix) (k : ℚ) : Option Matrix :=
  if k = 0 then none else some (m.mulS k⁻¹)

/-- C5: second-operand coercion and scalar broadcast for addition:
adding the Point (1,1), the like-sequence (1,1), or the number 1 to
Point(1,2) all give Point(2,3). -/
theorem C5_addition_coercion :
    Point.addOp ⟨1, 2⟩ (.pt ⟨1, 1⟩) = Point.mk 2 3 ∧
    Point.addOp ⟨1, 2⟩ (.seq 1 1) = Point.mk 2 3 ∧
    Point.addOp ⟨1, 2⟩ (.num 1) = Point.mk 2 3 := by
  refine ⟨?_, ?_, ?_⟩ <;>
    · simp only [Point.addOp, Point.mk.injEq]
      norm_num

/-- C1: the two error policies for singular matrices are asymmetric and
both hold: for every geometry object (Point, Rect, IRect, Quad, Matrix)
and every matrix m with determinant zero, division by m fails with a
ZeroDivisionError (modelled as `none`), as does division by the number
zero, whereas unary inversion of the same singular m does not fail and
returns the all-zero matrix as a sentinel; concretely
Point(1,2) / Matrix(1,0,1,0,1,0) fails. -/
theorem C1_division_error_policy :
    (∀ m : Matrix, m.det = 0 →
      (∀ p : Point, p.divM m = none) ∧
      (∀ r : Rect, r.divM m = none) ∧
      (∀ i : IRect, i.divM m = none) ∧
      (∀ q : Quad, q.divM m = none) ∧
      (∀ n : Matrix, n.divM m = none) ∧
      m.invert = Matrix.zero) ∧
    ((∀ p : Point, p.divN 0 = none) ∧
     (∀ r : Rect, r.divN 0 = none) ∧
     (∀ i : IRect, i.divN 0 = none) ∧
     (∀ q : Quad, q.divN 0 = none) ∧
     (∀ n : Matrix, n.divN 0 = none)) ∧
    Point.divM ⟨1, 2⟩ ⟨1, 0, 1, 0, 1, 0⟩ = none := by
  refine ⟨?_, ⟨?_, ?_, ?_, ?_, ?_⟩, ?_⟩
  · intro m hm
    exact ⟨fun p => by simp [Point.divM, hm],
           fun r => by simp [Rect.divM, hm],
           fun i => by simp [IRect.divM, hm],
           fun q => by simp [Quad.divM, hm],
           fun n => by simp [Matrix.divM, hm],
           by simp [Matrix.invert, hm]⟩
  · intro p
    simp [Point.divN]
  · intro r
    simp [Rect.divN]
  · intro i
    simp [IRect.divN]
  · intro q
    simp [Quad.divN]
  · intro n
    simp [Matrix.divN]
  · have h : (Matrix.mk 1 0 1 0 1 0).det = 0 := by norm_num [Matrix.det]
    simp [Point.divM, h]

/-- Witness for C1 at the concrete singular matrix (1,0,1,0,1,0) and
the concrete point (1,2). -/
theorem C1_division_error_policy_witness :
    (Matrix.mk 1 0 1 0 1 0).det = 0 ∧
    Point.divM ⟨1, 2⟩ ⟨1, 0, 1, 0, 1, 0⟩ = none ∧
    (Matrix.mk 1 0 1 0 1 0).invert = Matrix.zero :=
  ⟨by norm_num [Matrix.det],
   (C1_division_error_policy.1 ⟨1, 0, 1, 0, 1, 0⟩
      (by norm_num [Matrix.det])).1 ⟨1, 2⟩,
   (C1_division_error_policy.1 ⟨1, 0, 1, 0, 1, 0⟩
      (by norm_num [Matrix.det])).2.2.2.2.2⟩

/-- Modelled from the spec: the left-to-right chain product
`r * m1 * ... * mk` of a rectangle with matrices, applied in sequence
as the host language evaluates the chain. -/
def Rect.mulChain (r : Rect) (ms : List Matrix) : Rect :=
  ms.foldl Rect.transform r

/-- C2: mixed-type bracket laws for rectangle-by-matrix multiplication:
the chain r * m1 * m2 always equals (r * m1) * m2, but there are r, m1,
m2 with r * m1 * m2 ≠ r * (m1 * m2); there are rectangles r1, r2 and a
matrix m with (r1 + r2) * m ≠ r1 * m + r2 * m, while distributivity
over a scalar (r1 + r2) * k = r1 * k + r2 * k always holds. -/
theorem C2_bracket_laws :
    (∀ (r : Rect) (m1 m2 : Matrix),
      r.mulChain [m1, m2] = (r.transform m1).transform m2) ∧
    (∃ (r : Rect) (m1 m2 : Matrix),
      r.mulChain [m1, m2] ≠ r.transform (m1.concat m2)) ∧
    (∃ (r1 r2 : Rect) (m : Matrix),
      (r1.add r2).transform m ≠ (r1.transform m).add (r2.transform m)) ∧
    (∀ (r1 r2 : Rect) (k : ℚ),
      (r1.add r2).mulS k = (r1.mulS k).add (r2.mulS k)) := by
  refine ⟨fun r m1 m2 => rfl, ?_, ?_, ?_⟩
  · refine ⟨⟨0, 0, 1, 1⟩, ⟨1, 1, 0, 1, 0, 0⟩, ⟨1, -1, 0, 1, 0, 0⟩, ?_⟩
    simp only [Rect.mulChain, List.foldl, Rect.transform, Point.transform,
      Matrix.concat]
    norm_num [min_def, max_def, Rect.mk.injEq]
  · refine ⟨⟨0, 0, 1, 1⟩, ⟨0, 0, 1, 1⟩, ⟨1, 0, 0, 1, 5, 7⟩, ?_⟩
    simp only [Rect.add, Rect.transform, Point.transform]
    norm_num [min_def, max_def, Rect.mk.injEq]
  · intro r1 r2 k
    simp only [Rect.add, Rect.mulS, Rect.mk.injEq]
    refine ⟨?_, ?_, ?_, ?_⟩ <;> ring

/-- Modelled from the spec: the library-defined extreme sentinel
coordinate hit by the top-left corner of the standard empty
rectangle. -/
def FZ_MAX_INF_RECT : ℚ := 2147483520

/-- Modelled from the spec: the library-defined extreme sentinel
coordinate hit by the bottom-right corner of the standard empty
rectangle. -/
def FZ_MIN_INF_RECT : ℚ := -2147483648

/-- Modelled from the spec: the standard empty rectangle constant
`EMPTY_RECT`, whose sentinel top-left lies beyond its sentinel
bottom-right so that union-folds absorb it. -/
def EMPTY_RECT : Rect :=
  ⟨FZ_MAX_INF_RECT, FZ_MAX_INF_RECT, FZ_MIN_INF_RECT, FZ_MIN_INF_RECT⟩

/-- Modelled from the spec: the union `r | p` with a point-like second
operand, the smallest rectangle covering rectangle r and the point. -/
def Rect.orPair (r : Rect) (p : ℚ × ℚ) : Rect :=
  ⟨min r.x0 p.1, min r.y0 p.2, max r.x1 p.1, max r.y1 p.2⟩

/-- The point-likes (i, j) for i in 0..4 and j in 0..2, in the order
the notebook's two nested loops append them. -/
def unionPts : List (ℚ × ℚ) :=
  [(0, 0), (0, 1), (0, 2),
   (1, 0), (1, 1), (1, 2),
   (2, 0), (2, 1), (2, 2),
   (3, 0), (3, 1), (3, 2),
   (4, 0), (4, 1), (4, 2)]

/-- C6: union-fold postcondition: starting from the standard empty
rectangle and folding the in-place union with every point (i, j) for
i in 0..4 and j in 0..2 yields exactly Rect(0, 0, 4, 2). -/
theorem C6_union_fold :
    unionPts.foldl Rect.orPair EMPTY_RECT = Rect.mk 0 0 4 2 := by
  simp only [unionPts, List.foldl, Rect.orPair, EMPTY_RECT,
    FZ_MAX_INF_RECT, FZ_MIN_INF_RECT]
  norm_num [min_def, max_def, Rect.mk.injEq]

/-- Modelled from the spec: component-wise point subtraction. -/
def Point.sub (p q : Point) : Point := ⟨p.x - q.x, p.y - q.y⟩

/-- Modelled from the spec: bool(OBJ) is false exactly if every
component is zero. -/
def Point.toBool (p : Point) : Bool := !decide (p.x = 0 ∧ p.y = 0)

/-- Modelled from the spec: component-wise rectangle subtraction. -/
def Rect.sub (r s : Rect) : Rect :=
  ⟨r.x0 - s.x0, r.y0 - s.y0, r.x1 - s.x1, r.y1 - s.y1⟩

/-- Modelled from the spec: bool(OBJ) is false exactly if every
component is zero. -/
def Rect.toBool (r : Rect) : Bool :=
  !decide (r.x0 = 0 ∧ r.y0 = 0 ∧ r.x1 = 0 ∧ r.y1 = 0)

/-- Modelled from the spec: component-wise IRect subtraction. -/
def IRect.sub (r s : IRect) : IRect :=
  ⟨r.x0 - s.x0, r.y0 - s.y0, r.x1 - s.x1, r.y1 - s.y1⟩

/-- Modelled from the spec: bool(OBJ) is false exactly if every
component is zero. -/
def IRect.toBool (r : IRect) : Bool :=
  !decide (r.x0 = 0 ∧ r.y0 = 0 ∧ r.x1 = 0 ∧ r.y1 = 0)

/-- Modelled from the spec: component-wise quad subtraction on the four
corner points. -/
def Quad.sub (q r : Quad) : Quad :=
  ⟨q.ul.sub r.ul, q.ur.sub r.ur, q.ll.sub r.ll, q.lr.sub r.lr⟩

/-- Modelled from the spec: bool(OBJ) is false exactly if every
component is zero. -/
def Quad.toBool (q : Quad) : Bool :=
  q.ul.toBool || q.ur.toBool || q.ll.toBool || q.lr.toBool

/-- Modelled from the spec: component-wise matrix subtraction. -/
def Matrix.sub (m n : Matrix) : Matrix :=
  ⟨m.a - n.a, m.b - n.b, m.c - n.c, m.d - n.d, m.e - n.e, m.f - n.f⟩

/-- Modelled from the spec: bool(OBJ) is false exactly if every
component is zero. -/
def Matrix.toBool (m : Matrix) : Bool :=
  !decide (m.a = 0 ∧ m.b = 0 ∧ m.c = 0 ∧ m.d = 0 ∧ m.e = 0 ∧ m.f = 0)

/-- Modelled from the spec: the right operand of a point equality
check: a same-typed Point or a raw 2-sequence. -/
inductive PointLike where
  | pt (p : Point)
  | seq (a b : ℚ)

/-- Modelled from the spec: coercion of a point-like to the first
operand's class. -/
def PointLike.toPoint : PointLike → Point
  | .pt p => p
  | .seq a b => ⟨a, b⟩

/-- Modelled from the spec: the equality check `A == B` of a point A
and a point-like B, true iff bool(A - B) is false after coercing B to
A's class. -/
def Point.beqLike (p : Point) (x : PointLike) : Bool :=
  !(p.sub x.toPoint).toBool

/-- Modelled from the spec: same-typed point equality check. -/
def Point.beq (p q : Point) : Bool := !(p.sub q).toBool

/-- Modelled from the spec: same-typed rectangle equality check. -/
def Rect.beq (r s : Rect) : Bool := !(r.sub s).toBool

/-- Modelled from the spec: same-typed IRect equality check. -/
def IRect.beq (r s : IRect) : Bool := !(r.sub s).toBool

/-- Modelled from the spec: same-typed quad equality check. -/
def Quad.beq (q r : Quad) : Bool := !(q.sub r).toBool

/-- Modelled from the spec: same-typed matrix equality check. -/
def Matrix.beq (m n : Matrix) : Bool := !(m.sub n).toBool

/-- Modelled from the spec: the right operand of the host language's
equality on raw 2-sequences: another raw 2-sequence or a geometry
Point. -/
inductive RawOrPoint where
  | raw (a b : ℚ)
  | pt (p : Point)

/-- Modelled from the spec: the host language's own equality on raw
2-sequences, which does not recognize the geometry class: a raw pair
equals only a raw pair with the same components. -/
def rawPairBeq : ℚ × ℚ → RawOrPoint → Bool
  | (a, b), .raw a1 b1 => decide (a = a1) && decide (b = b1)
  | _, .pt _ => false

theorem pointBeq_iff (p q : Point) : p.beq q = true ↔ p = q := by
  obtain ⟨x, y⟩ := p
  obtain ⟨x1, y1⟩ := q
  simp [Point.beq, Point.sub, Point.toBool, Point.mk.injEq, sub_eq_zero]

theorem rectBeq_iff (r s : Rect) : r.beq s = true ↔ r = s := by
  obtain ⟨a, b, c, d⟩ := r
  obtain ⟨a1, b1, c1, d1⟩ := s
  simp [Rect.beq, Rect.sub, Rect.toBool, Rect.mk.injEq, sub_eq_zero]

theorem IrectBeq_iff (r s : IRect) : r.beq s = true ↔ r = s := by
  obtain ⟨a, b, c, d⟩ := r
  obtain ⟨a1, b1, c1, d1⟩ := s
  simp [IRect.beq, IRect.sub, IRect.toBool, IRect.mk.injEq, sub_eq_zero]

theorem quadBeq_iff (q r : Quad) : q.beq r = true ↔ q = r := by
  obtain ⟨⟨a, b⟩, ⟨c, d⟩, ⟨e, f⟩, ⟨g, h⟩⟩ := q
  obtain ⟨⟨a1, b1⟩, ⟨c1, d1⟩, ⟨e1, f1⟩, ⟨g1, h1⟩⟩ := r
  simp [Quad.beq, Quad.sub, Quad.toBool, Point.sub, Point.toBool,
    Quad.mk.injEq, Point.mk.injEq, sub_eq_zero]
  tauto

theorem matrixBeq_iff (m n : Matrix) : m.beq n = true ↔ m = n := by
  obtain ⟨a, b, c, d, e, f⟩ := m
  obtain ⟨a1, b1, c1, d1, e1, f1⟩ := n
  simp [Matrix.beq, Matrix.sub, Matrix.toBool, Matrix.mk.injEq, sub_eq_zero]

/-- C7: equality is defined by component-wise difference: A == B holds
iff bool(A - B) is false after coercing B to A's class; Point(2,4) ==
(2,4) is true while the reversed comparison (2,4) == Point(2,4) is not
recognized by the geometry class and yields inequality; equality is
reflexive, symmetric and transitive on each same-typed geometry
class. -/
theorem C7_equality_policy :
    (∀ (p : Point) (x : PointLike),
      p.beqLike x = true ↔ (p.sub x.toPoint).toBool = false) ∧
    Point.beqLike ⟨2, 4⟩ (.seq 2 4) = true ∧
    rawPairBeq (2, 4) (.pt ⟨2, 4⟩) = false ∧
    (∀ p : Point, p.beq p = true) ∧
    (∀ p q : Point, p.beq q = true → q.beq p = true) ∧
    (∀ p q r : Point, p.beq q = true → q.beq r = true → p.beq r = true) ∧
    (∀ r : Rect, r.beq r = true) ∧
    (∀ r s : Rect, r.beq s = true → s.beq r = true) ∧
    (∀ r s t : Rect, r.beq s = true → s.beq t = true → r.beq t = true) ∧
    (∀ r : IRect, r.beq r = true) ∧
    (∀ r s : IRect, r.beq s = true → s.beq r = true) ∧
    (∀ r s t : IRect, r.beq s = true → s.beq t = true → r.beq t = true) ∧
    (∀ q : Quad, q.beq q = true) ∧
    (∀ q r : Quad, q.beq r = true → r.beq q = true) ∧
    (∀ q r s : Quad, q.beq r = true → r.beq s = true → q.beq s = true) ∧
    (∀ m : Matrix, m.beq m = true) ∧
    (∀ m n : Matrix, m.beq n = true → n.beq m = true) ∧
    (∀ m n o : Matrix, m.beq n = true → n.beq o = true → m.beq o = true) := by
  refine ⟨?_, ?_, rfl, ?_, ?_, ?_, ?_, ?_, ?_, ?_, ?_, ?_, ?_, ?_, ?_, ?_, ?_, ?_⟩
  · intro p x
    simp [Point.beqLike]
  · simp [Point.beqLike, PointLike.toPoint, Point.sub, Point.toBool]
  · exact fun p => (pointBeq_iff p p).mpr rfl
  · exact fun p q h => (pointBeq_iff q p).mpr ((pointBeq_iff p q).mp h).symm
  · exact fun p q r h1 h2 =>
      (pointBeq_iff p r).mpr (((pointBeq_iff p q).mp h1).trans ((pointBeq_iff q r).mp h2))
  · exact fun r => (rectBeq_iff r r).mpr rfl
  · exact fun r s h => (rectBeq_iff s r).mpr ((rectBeq_iff r s).mp h).symm
  · exact fun r s t h1 h2 =>
      (rectBeq_iff r t).mpr (((rectBeq_iff r s).mp h1).trans ((rectBeq_iff s t).mp h2))
  · exact fun r => (IrectBeq_iff r r).mpr rfl
  · exact fun r s h => (IrectBeq_iff s r).mpr ((IrectBeq_iff r s).mp h).symm
  · exact fun r s t h1 h2 =>
      (IrectBeq_iff r t).mpr (((IrectBeq_iff r s).mp h1).trans ((IrectBeq_iff s t).mp h2))
  · exact fun q => (quadBeq_iff q q).mpr rfl
  · exact fun q r h => (quadBeq_iff r q).mpr ((quadBeq_iff q r).mp h).symm
  · exact fun q r s h1 h2 =>
      (quadBeq_iff q s).mpr (((quadBeq_iff q r).mp h1).trans ((quadBeq_iff r s).mp h2))
  · exact fun m => (matrixBeq_iff m m).mpr rfl
  · exact fun m n h => (matrixBeq_iff n m).mpr ((matrixBeq_iff m n).mp h).symm
  · exact fun m n o h1 h2 =>
      (matrixBeq_iff m o).mpr (((matrixBeq_iff m n).mp h1).trans ((matrixBeq_iff n o).mp h2))

/-- Witness for C7: the transitivity component applied at the concrete
points (1,2), (1,2), (1,2), with both hypotheses discharged by
evaluation. -/
theorem C7_equality_policy_witness :
    Point.beq ⟨1, 2⟩ ⟨1, 2⟩ = true ∧ Point.beq ⟨1, 2⟩ ⟨1, 2⟩ = true :=
  ⟨by simp [Point.beq, Point.sub, Point.toBool],
   C7_equality_policy.2.2.2.2.2.1 ⟨1, 2⟩ ⟨1, 2⟩ ⟨1, 2⟩
     (by simp [Point.beq, Point.sub, Point.toBool])
     (by simp [Point.beq, Point.sub, Point.toBool])⟩

/-- Modelled from the spec: a rectangle is empty iff width ≤ 0 or
height ≤ 0. -/
def Rect.isEmptyR (r : Rect) : Bool := decide (r.width ≤ 0 ∨ r.height ≤ 0)

/-- Modelled from the spec: a rectangle is valid iff x0 ≤ x1 and
y0 ≤ y1. -/
def Rect.isValidR (r : Rect) : Bool := decide (r.x0 ≤ r.x1 ∧ r.y0 ≤ r.y1)

/-- Modelled from the spec: the argument of a containment check may be
point-like, rect-like or quad-like. -/
inductive ContainsArg where
  | pt (p : Point)
  | rct (s : Rect)
  | qd (q : Quad)

/-- Modelled from the spec: whether a point lies within (or on the
boundary of) the rectangle, in the receiver's coordinate system. -/
def Rect.containsPoint (r : Rect) (p : Point) : Bool :=
  decide (r.x0 ≤ p.x ∧ p.x ≤ r.x1 ∧ r.y0 ≤ p.y ∧ p.y ≤ r.y1)

/-- Modelled from the spec: `r.contains x` is true iff every point of
the point-like, rect-like or quad-like x lies within or on the
boundary of the receiver; an empty or invalid rectangle contains
nothing (always false), even for degenerate x. -/
def Rect.contains (r : Rect) (x : ContainsArg) : Bool :=
  if r.isEmptyR || !r.isValidR then false
  else
    match x with
    | .pt p => r.containsPoint p
    | .rct s => r.containsPoint ⟨s.x0, s.y0⟩ && r.containsPoint ⟨s.x1, s.y1⟩
    | .qd q =>
        r.containsPoint q.ul && r.containsPoint q.ur &&
          r.containsPoint q.ll && r.containsPoint q.lr

/-- C8: containment degenerate case: every rectangle that is empty
(width ≤ 0 or height ≤ 0) or invalid (x0 > x1 or y0 > y1) contains no
point-like, rect-like or quad-like argument, degenerate arguments
included. -/
theorem C8_degenerate_containment :
    ∀ (r : Rect) (x : ContainsArg),
      (r.isEmptyR = true ∨ r.isValidR = false) → r.contains x = false := by
  intro r x h
  rcases h with h | h <;> simp [Rect.contains, h]

/-- Witness for C8 at the concrete empty rectangle (0,0,0,0) and the
point (0,0) lying on it. -/
theorem C8_degenerate_containment_witness :
    (Rect.isEmptyR ⟨0, 0, 0, 0⟩ = true ∨ Rect.isValidR ⟨0, 0, 0, 0⟩ = false) ∧
    Rect.contains ⟨0, 0, 0, 0⟩ (.pt ⟨0, 0⟩) = false :=
  ⟨Or.inl (by norm_num [Rect.isEmptyR, Rect.width, Rect.height]),
   C8_degenerate_containment ⟨0, 0, 0, 0⟩ (.pt ⟨0, 0⟩)
     (Or.inl (by norm_num [Rect.isEmptyR, Rect.width, Rect.height]))⟩

/-- Modelled from the spec: `a & b`, the largest rectangle contained in
both rectangle a and rect-like b; the result may be an empty
rectangle. -/
def Rect.inter (r s : Rect) : Rect :=
  ⟨max r.x0 s.x0, max r.y0 s.y0, min r.x1 s.x1, min r.y1 s.y1⟩

/-- Modelled from the spec: abs() of a rectangle is its area
width × height. -/
def Rect.abs (r : Rect) : ℚ := r.width * r.height

/-- A drawing dictionary as returned by page.get_drawings(), with the
fields the hidden-text scan reads: paint sequence number, bounding
rectangle, path type string (as a character list) and fill opacity. -/
structure Drawing where
  seqno : ℕ
  rect : Rect
  ptype : List Char
  fill_opacity : ℚ

/-- One character entry of a text span: its code point ch[0] and its
bounding box ch[3]. -/
structure SpanChar where
  code : ℕ
  bbox : Rect
deriving DecidableEq

/-- A text span as returned by page.get_texttrace(): its paint sequence
number, bounding box and character list. -/
structure Span where
  seqno : ℕ
  bbox : Rect
  chars : List SpanChar

/-- The significance filter of the hidden-text scan
(src/unnamed/part_000): rectangle wider and taller than 3, path type
beginning with f (fill or fill-stroke), fill opacity 1. -/
def drawFilter (p : Drawing) : Bool :=
  decide (3 < p.rect.width) && decide (3 < p.rect.height) &&
    (p.ptype.head? == some 'f') && decide (p.fill_opacity = 1)

/-- seq_paths of the hidden-text scan (src/unnamed/part_000): the
(seqno, irect) pairs of the significant drawings. -/
def seq_paths (drawings : List Drawing) : List (ℕ × IRect) :=
  (drawings.filter drawFilter).map fun p => (p.seqno, p.rect.irect)

/-- The per-span restriction of the hidden-text scan
(src/unnamed/part_000): drawings painted at or after the span whose
rectangle overlaps the span's bbox. -/
def span_paths (sp : List (ℕ × IRect)) (span : Span) : List (ℕ × IRect) :=
  sp.filter fun p =>
    decide (span.seqno ≤ p.1) && !(p.2.toRect.inter span.bbox).isEmptyR

/-- The characters of the span covered at least 80% by the drawing
rectangle (src/unnamed/part_000). -/
def problems (draw_rect : IRect) (span : Span) : List SpanChar :=
  span.chars.filter fun ch =>
    decide (ch.bbox.abs * (4 / 5) ≤ (ch.bbox.inter draw_rect.toRect).abs)

/-- The hidden-text report for one span (src/unnamed/part_000): the
drawings with at least one covered character, each with the characters
it covers. -/
def span_report (drawings : List Drawing) (span : Span) :
    List (ℕ × List SpanChar) :=
  ((span_paths (seq_paths drawings) span).map
      fun p => (p.1, problems p.2 span)).filter
    fun r => !r.2.isEmpty

/-- C9: hidden-text scan filter invariant: every drawing reported as
covering characters of a span comes from an input drawing whose path
type begins with f, whose fill opacity is 1, whose rectangle is wider
and taller than 3, and whose sequence number is at least the span's
sequence number (drawings painted before the text are never
reported). -/
theorem C9_scan_filter_invariant :
    ∀ (drawings : List Drawing) (span : Span) (rep : ℕ × List SpanChar),
      rep ∈ span_report drawings span →
      ∃ d ∈ drawings,
        d.seqno = rep.1 ∧ d.ptype.head? = some 'f' ∧ d.fill_opacity = 1 ∧
        3 < d.rect.width ∧ 3 < d.rect.height ∧ span.seqno ≤ rep.1 := by
  intro drawings span rep hrep
  rw [span_report, List.mem_filter] at hrep
  obtain ⟨hmem, hne⟩ := hrep
  rw [List.mem_map] at hmem
  obtain ⟨p, hp, hpe⟩ := hmem
  rw [span_paths, List.mem_filter] at hp
  obtain ⟨hsp, hcond⟩ := hp
  rw [seq_paths, List.mem_map] at hsp
  obtain ⟨q, hq, hqe⟩ := hsp
  rw [List.mem_filter] at hq
  obtain ⟨hqmem, hqf⟩ := hq
  rw [drawFilter] at hqf
  simp only [Bool.and_eq_true, decide_eq_true_eq, beq_iff_eq] at hqf hcond
  obtain ⟨⟨⟨hw, hh⟩, ht⟩, ho⟩ := hqf
  obtain ⟨hseq, -⟩ := hcond
  have h1 : rep.1 = q.seqno := by rw [← hpe, ← hqe]
  have h2 : p.1 = q.seqno := by rw [← hqe]
  exact ⟨q, hqmem, h1.symm, ht, ho, hw, hh, by rw [h1, ← h2]; exact hseq⟩

/-- Witness for C9 at a one-drawing, one-span page: the solid drawing
(seqno 10, rect (0,0,10,10), type f, opacity 1) is reported over the
span painted at seqno 5. -/
theorem C9_scan_filter_invariant_witness :
    ((10 : ℕ), [SpanChar.mk 65 ⟨1, 1, 2, 2⟩]) ∈
        span_report [⟨10, ⟨0, 0, 10, 10⟩, ['f'], 1⟩]
          ⟨5, ⟨0, 0, 10, 10⟩, [⟨65, ⟨1, 1, 2, 2⟩⟩]⟩ ∧
      ∃ d ∈ [Drawing.mk 10 ⟨0, 0, 10, 10⟩ ['f'] 1],
        d.seqno = 10 ∧ d.ptype.head? = some 'f' ∧ d.fill_opacity = 1 ∧
        3 < d.rect.width ∧ 3 < d.rect.height ∧ (5 : ℕ) ≤ 10 := by
  have hmem : ((10 : ℕ), [SpanChar.mk 65 ⟨1, 1, 2, 2⟩]) ∈
      span_report [⟨10, ⟨0, 0, 10, 10⟩, ['f'], 1⟩]
        ⟨5, ⟨0, 0, 10, 10⟩, [⟨65, ⟨1, 1, 2, 2⟩⟩]⟩ := by
    rw [span_report, seq_paths]
    norm_num [drawFilter, List.filter, span_paths, problems, Rect.width,
      Rect.height, Rect.irect, IRect.toRect, Rect.inter, Rect.isEmptyR,
      Rect.abs, min_def, max_def]
  exact ⟨hmem,
    C9_scan_filter_invariant [⟨10, ⟨0, 0, 10, 10⟩, ['f'], 1⟩]
      ⟨5, ⟨0, 0, 10, 10⟩, [⟨65, ⟨1, 1, 2, 2⟩⟩]⟩
      ((10 : ℕ), [SpanChar.mk 65 ⟨1, 1, 2, 2⟩]) hmem⟩

/-- C10: coverage threshold: for a drawing that passed the filter and
overlaps the span, a character of the span is reported as covered
exactly if the area of the intersection of its bbox with the drawing
rectangle is at least 0.8 times the area of its bbox. -/
theorem C10_coverage_threshold :
    ∀ (drawings : List Drawing) (span : Span) (p : ℕ × IRect)
      (ch : SpanChar),
      p ∈ span_paths (seq_paths drawings) span →
      ch ∈ span.chars →
      (ch ∈ problems p.2 span ↔
        ch.bbox.abs * (4 / 5) ≤ (ch.bbox.inter p.2.toRect).abs) := by
  intro drawings span p ch hp hch
  rw [problems, List.mem_filter]
  simp [hch]

/-- Witness for C10 at the same one-drawing, one-span page: the only
character's bbox (1,1,2,2) is fully inside the drawing rectangle, so it
is reported. -/
theorem C10_coverage_threshold_witness :
    ((10 : ℕ), IRect.mk 0 0 10 10) ∈
        span_paths (seq_paths [⟨10, ⟨0, 0, 10, 10⟩, ['f'], 1⟩])
          ⟨5, ⟨0, 0, 10, 10⟩, [⟨65, ⟨1, 1, 2, 2⟩⟩]⟩ ∧
      SpanChar.mk 65 ⟨1, 1, 2, 2⟩ ∈
        problems (IRect.mk 0 0 10 10)
          ⟨5, ⟨0, 0, 10, 10⟩, [⟨65, ⟨1, 1, 2, 2⟩⟩]⟩ := by
  have hp : ((10 : ℕ), IRect.mk 0 0 10 10) ∈
      span_paths (seq_paths [⟨10, ⟨0, 0, 10, 10⟩, ['f'], 1⟩])
        ⟨5, ⟨0, 0, 10, 10⟩, [⟨65, ⟨1, 1, 2, 2⟩⟩]⟩ := by
    rw [seq_paths]
    norm_num [drawFilter, List.filter, span_paths, Rect.width, Rect.height,
      Rect.irect, IRect.toRect, Rect.inter, Rect.isEmptyR, min_def, max_def]
  refine ⟨hp, ?_⟩
  refine (C10_coverage_threshold [⟨10, ⟨0, 0, 10, 10⟩, ['f'], 1⟩]
      ⟨5, ⟨0, 0, 10, 10⟩, [⟨65, ⟨1, 1, 2, 2⟩⟩]⟩
      ((10 : ℕ), IRect.mk 0 0 10 10) ⟨65, ⟨1, 1, 2, 2⟩⟩ hp
      (by simp)).mpr ?_
  norm_num [Rect.abs, Rect.inter, IRect.toRect, Rect.width, Rect.height,
    min_def, max_def]

end PyMuPDF
